import Mathlib

/-!
Verification of the NoThrow library (binary-outcome container `Result`,
optional-value container `Option`, generator-based propagation engine `gen`,
aggregate combinators `all` / `partition`, and the `tryPromise` retry helper).
Each definition below is a shallow embedding of the corresponding construct
in `src/src/result.ts` and the option module; extraction operations that throw
in the source are embedded as `Except String` values carrying the thrown
message, and the asynchronous retry loop is embedded as a recursion that also
records the delays requested from the timer and the number of thunk
invocations.
-/

namespace NoThrow

/-- Binary-outcome container from `src/src/result.ts`: `Ok` carries the success
value, `Err` carries the error value. -/
inductive Result (T E : Type) where
  | ok : T → Result T E
  | err : E → Result T E
  deriving DecidableEq, Repr

namespace Result

variable {T E U : Type}

/-- `Ok.isOk` returns true, `Err.isOk` returns false. -/
def isOk : Result T E → Bool
  | .ok _ => true
  | .err _ => false

/-- `Ok.isErr` returns false, `Err.isErr` returns true. -/
def isErr : Result T E → Bool
  | .ok _ => false
  | .err _ => true

/-- `map`: `Ok` applies the function to the contained value, `Err` rebuilds
the same error (`new Err(this.error)`). -/
def map (fn : T → U) : Result T E → Result U E
  | .ok v => .ok (fn v)
  | .err e => .err e

/-- `unwrap`: `Ok` returns the value; `Err` throws
`new Error("Called unwrap on an Err value: " + JSON.stringify(this.error))`.
The host serialization `JSON.stringify` is passed in as `serialize`. -/
def unwrap (serialize : E → String) : Result T E → Except String T
  | .ok v => .ok v
  | .err e => .error ("Called unwrap on an Err value: " ++ serialize e)

/-- `expectErr`: `Ok` throws `new Error(message)`; `Err` returns the error. -/
def expectErr (message : String) : Result T E → Except String E
  | .ok _ => .error message
  | .err e => .ok e

end Result

/-- Optional-value container from the option module: `some` carries a value,
`none` is the absent singleton. -/
inductive Option (T : Type) where
  | some : T → Option T
  | none
  deriving DecidableEq, Repr

namespace Option

variable {T : Type}

/-- `Some.isSome` returns true, `None.isSome` returns false. -/
def isSome : Option T → Bool
  | .some _ => true
  | .none => false

/-- `Some.isNone` returns false, `None.isNone` returns true. -/
def isNone : Option T → Bool
  | .some _ => false
  | .none => true

/-- `unwrap`: `Some` returns the value; `None` throws
`new Error("Called unwrap on a None value")`. -/
def unwrap : Option T → Except String T
  | .some v => .ok v
  | .none => .error "Called unwrap on a None value"

end Option

/-- A JavaScript value of type `T | null | undefined`: either an actual value
of `T`, the `null` sentinel, or the `undefined` sentinel. -/
inductive Nullable (T : Type) where
  | val : T → Nullable T
  | jsNull : Nullable T
  | jsUndefined : Nullable T
  deriving DecidableEq, Repr

namespace OptionFactory

variable {T : Type}

/-- `OptionFactory.fromNullable`: `value != null ? new Some(value) : None.instance`.
The loose inequality `!= null` in the host language is false exactly for the
two sentinels `null` and `undefined`, and true for every other value
(including `0`, the empty string and `false`). -/
def fromNullable : Nullable T → Option T
  | .val v => .some v
  | .jsNull => .none
  | .jsUndefined => .none

end OptionFactory

/-- A generator as observed through the iterator protocol: it either completes
(`done: true`) with a return value of type `R`, or suspends yielding a value of
type `Y` and waits for a resumption of type `V` handed to the next `next`. -/
inductive Trace (Y V R : Type) where
  | ret : R → Trace Y V R
  | yld : Y → (V → Trace Y V R) → Trace Y V R

/-- Drives a trace from outside, supplying the listed resumption values one
per suspension: returns the list of yielded elements in order, together with
the completion value if the trace completed before resumptions ran out. -/
def runTrace {Y V R : Type} : Trace Y V R → List V → List Y × Option R
  | .ret r, _ => ([], .some r)
  | .yld y _, [] => ([y], .none)
  | .yld y k, v :: vs =>
    let rest := runTrace (k v) vs
    (y :: rest.1, rest.2)

/-- `Ok`'s `Symbol.iterator` generator body: `return this.value` — it yields
nothing and immediately completes with the contained value. Yield type is the
outcome type and the resumption type `unknown` is instantiated at the outcome
type (the reinterpretation used by the engine's typing). -/
def okIter {T E : Type} (v : T) : Trace (Result T E) (Result T E) T :=
  .ret v

/-- `Err`'s `Symbol.iterator` generator body: `return (yield this) as T` — it
yields itself once and then completes with the resumption value, reinterpreted
(`as T`) as the final value; the resumption type `unknown` is instantiated at
the outcome type so the cast is the identity reinterpretation. -/
def errIter {T E : Type} (e : E) : Trace (Result T E) (Result T E) (Result T E) :=
  .yld (.err e) (fun r => .ret r)

namespace ResultFactory

variable {T E V : Type}

/-- `ResultFactory.gen`'s driving loop: run the generator; while not done,
inspect the yielded outcome — an `Err` is returned at once as the overall
result, an `Ok` has its `.value` fed back into `generator.next`; when the
generator is done, its return value is the overall result. -/
def gen : Trace (Result V E) V (Result T E) → Result T E
  | .ret r => r
  | .yld (.err e) _ => .err e
  | .yld (.ok v) k => gen (k v)

/-- Builds the trace of a straight-line wrapped procedure: yield each listed
outcome in order, collecting the values the engine resumes with, and finally
complete with `fin` applied to the collected resumption values. -/
def mkProcGo (fin : List V → Result T E) :
    List (Result V E) → List V → Trace (Result V E) V (Result T E)
  | [], acc => .ret (fin acc)
  | s :: rest, acc => .yld s (fun v => mkProcGo fin rest (acc ++ [v]))

/-- A straight-line wrapped procedure with the given sequence of yielded
outcomes and final outcome producer. -/
def mkProc (steps : List (Result V E)) (fin : List V → Result T E) :
    Trace (Result V E) V (Result T E) :=
  mkProcGo fin steps []

/-- Loop body of `ResultFactory.all`: iterate over the results; on the first
`Err` return it immediately, otherwise push the value and continue; at the end
return `Ok` of the collected values. -/
def allGo (values : List T) : List (Result T E) → Result (List T) E
  | [] => .ok values
  | r :: rest =>
    match r with
    | .err e => .err e
    | .ok v => allGo (values ++ [v]) rest

/-- `ResultFactory.all`: combines a list of results into one result of a list,
short-circuiting on the first error. -/
def all (results : List (Result T E)) : Result (List T) E :=
  allGo [] results

/-- Loop body of `ResultFactory.partition`: every element is inspected; `Ok`
values are pushed onto `okValues`, `Err` errors onto `errValues`. -/
def partitionGo (okValues : List T) (errValues : List E) :
    List (Result T E) → List T × List E
  | [] => (okValues, errValues)
  | r :: rest =>
    match r with
    | .ok v => partitionGo (okValues ++ [v]) errValues rest
    | .err e => partitionGo okValues (errValues ++ [e]) rest

/-- `ResultFactory.partition`: separates a list of results into the list of
success values and the list of errors. -/
def partition (results : List (Result T E)) : List T × List E :=
  partitionGo [] [] results

end ResultFactory

/-- The payload values of the `Ok` elements of a list, in their original
relative order (specification-side observer for `partition`). -/
def okValues {T E : Type} : List (Result T E) → List T
  | [] => []
  | .ok v :: rest => v :: okValues rest
  | .err _ :: rest => okValues rest

/-- The error values of the `Err` elements of a list, in their original
relative order (specification-side observer for `partition`). -/
def errValues {T E : Type} : List (Result T E) → List E
  | [] => []
  | .ok _ :: rest => errValues rest
  | .err e :: rest => e :: errValues rest

/-- Backoff strategy of the retry configuration. The source checks
`retry.backoff === "exponential"`; an absent or `"linear"` backoff both take
the linear branch, so `linear` models both. -/
inductive Backoff where
  | linear
  | exponential
  deriving DecidableEq, Repr

/-- Retry configuration of `ResultFactory.tryPromise`. `times` is a host
`number`, so it is embedded as an integer (it may be negative). -/
structure Retry where
  times : Int
  delayMs : Nat
  backoff : Backoff
  deriving DecidableEq, Repr

/-- The error value a `tryPromise` failure can carry: the raw fault passed
through when no `catch` mapper is configured, the mapper's output when one is,
or the fresh `new Error("Unexpected retry error")` produced after the attempt
loop exits without returning. -/
inductive TPErr (F E : Type) where
  | ofFault : F → TPErr F E
  | ofCatch : E → TPErr F E
  | unexpectedRetry : TPErr F E
  deriving DecidableEq, Repr

namespace ResultFactory

variable {T E F : Type}

/-- The delay computed before a non-final retry:
`retry.backoff === "exponential" ? retry.delayMs * Math.pow(2, attempt) : retry.delayMs`. -/
def retryDelay (r : Retry) (attempt : Nat) : Nat :=
  match r.backoff with
  | .exponential => r.delayMs * 2 ^ attempt
  | .linear => r.delayMs

/-- The error mapping applied on the final failed attempt:
`catchFn ? catchFn(error) : (error as E)`. -/
def mapFault (catchFn : Option (F → E)) (f : F) : TPErr F E :=
  match catchFn with
  | .some c => .ofCatch (c f)
  | .none => .ofFault f

/-- The attempt loop of `ResultFactory.tryPromise`, with `remaining` the
number of loop iterations left (`maxAttempts - attempt`). Each attempt awaits
the thunk (modelled by `tryFn`, indexed by the zero-based attempt number, and
returning either a resolution value or a rejection fault). The triple returned
is (overall result, list of delays requested from the timer in order, number
of thunk invocations). Exiting the loop (`remaining = 0`) reaches the final
`return new Err(new Error("Unexpected retry error"))`. -/
def tpGo (tryFn : Nat → Except F T) (catchFn : Option (F → E))
    (retry : Option Retry) :
    Nat → Nat → Result T (TPErr F E) × List Nat × Nat
  | _, 0 => (.err .unexpectedRetry, [], 0)
  | attempt, remaining + 1 =>
    match tryFn attempt with
    | .ok v => (.ok v, [], 1)
    | .error f =>
      if remaining = 0 then
        (.err (mapFault catchFn f), [], 1)
      else
        match retry with
        | .some r =>
          let rest := tpGo tryFn catchFn (.some r) (attempt + 1) remaining
          (rest.1, retryDelay r attempt :: rest.2.1, rest.2.2 + 1)
        | .none =>
          let rest := tpGo tryFn catchFn .none (attempt + 1) remaining
          (rest.1, rest.2.1, rest.2.2 + 1)

/-- `maxAttempts = retry ? retry.times + 1 : 1`. -/
def maxAttempts (retry : Option Retry) : Int :=
  match retry with
  | .some r => r.times + 1
  | .none => 1

/-- `ResultFactory.tryPromise`: run the attempt loop
`for (attempt = 0; attempt < maxAttempts; attempt++)`; a negative iteration
count means the loop body never runs (`Int.toNat` clamps at zero exactly as
the `<` guard does). -/
def tryPromise (tryFn : Nat → Except F T) (catchFn : Option (F → E))
    (retry : Option Retry) : Result T (TPErr F E) × List Nat × Nat :=
  tpGo tryFn catchFn retry 0 (maxAttempts retry).toNat

end ResultFactory

section Helpers

open ResultFactory

variable {T E U V F : Type}

/-- Driving the engine across a block of successful yields resumes the
procedure with each unwrapped payload in turn, extending the collected
resumption values. -/
lemma gen_ok_steps (fin : List V → Result T E) (vs : List V) :
    ∀ (acc : List V) (rest : List (Result V E)),
      gen (mkProcGo fin (vs.map Result.ok ++ rest) acc) =
        gen (mkProcGo fin rest (acc ++ vs)) := by
  induction vs with
  | nil => intro acc rest; simp [mkProcGo]
  | cons v vs ih =>
    intro acc rest
    simp only [List.map_cons, List.cons_append, mkProcGo, gen, List.append_eq]
    rw [ih]
    simp

/-- `allGo` walks over a block of `Ok` elements by appending their payloads to
the accumulator. -/
lemma allGo_ok_steps (vs : List T) :
    ∀ (acc : List T) (rest : List (Result T E)),
      allGo (acc : List T) (vs.map Result.ok ++ rest) = allGo (acc ++ vs) rest := by
  induction vs with
  | nil => intro acc rest; simp
  | cons v vs ih =>
    intro acc rest
    simp only [List.map_cons, List.cons_append, allGo, List.append_eq]
    rw [ih]
    simp

/-- `partitionGo` appends the success payloads and errors of its input, in
order, to the respective accumulators. -/
lemma partitionGo_spec (rs : List (Result T E)) :
    ∀ (oks : List T) (errs : List E),
      partitionGo oks errs rs = (oks ++ okValues rs, errs ++ errValues rs) := by
  induction rs with
  | nil => intro oks errs; simp [partitionGo, okValues, errValues]
  | cons r rest ih =>
    intro oks errs
    cases r with
    | ok v => simp [partitionGo, okValues, errValues, ih]
    | err e => simp [partitionGo, okValues, errValues, ih]

/-- Every element lands in exactly one of the two observer lists. -/
lemma okValues_errValues_length (rs : List (Result T E)) :
    (okValues rs).length + (errValues rs).length = rs.length := by
  induction rs with
  | nil => simp [okValues, errValues]
  | cons r rest ih =>
    cases r with
    | ok v => simp [okValues, errValues]; omega
    | err e => simp [okValues, errValues]; omega

end Helpers

section GenTheorems

open ResultFactory

/-- Claim C1: a wrapped procedure whose yielded outcomes are a block of
successes followed by a first `Failure` makes `gen` return that `Failure`,
with the same error value, whatever outcomes would have followed and whatever
the procedure would have returned at completion — no later step runs and no
later yield is consumed. -/
theorem gen_short_circuits_on_first_failure {T E V : Type}
    (pre : List V) (e : E) (post : List (Result V E))
    (fin : List V → Result T E) :
    gen (mkProc (pre.map Result.ok ++ Result.err e :: post) fin) = Result.err e := by
  unfold mkProc
  rw [gen_ok_steps]
  simp [mkProcGo, gen]

/-- Claim C2: when every yielded outcome is a `Success`, the engine resumes
the procedure with exactly the unwrapped payload values, and the overall
result is the outcome the procedure returns at completion; a procedure with
zero yields returns its outcome unchanged. -/
theorem gen_success_path_resumes_with_payloads {T E V : Type} :
    (∀ (vs : List V) (fin : List V → Result T E),
        gen (mkProc (vs.map Result.ok) fin) = fin vs) ∧
    (∀ fin : List V → Result T E, gen (mkProc ([] : List (Result V E)) fin) = fin []) := by
  constructor
  · intro vs fin
    have h := gen_ok_steps fin vs [] []
    simpa [mkProc, mkProcGo, gen] using h
  · intro fin
    simp [mkProc, mkProcGo, gen]

/-- Claim C3: the suspension sequence of `Ok v` yields no element and
completes with `v`; the suspension sequence of `Err e` yields exactly one
element — the `Err` itself — under any driving, and when its suspension is
answered with that same `Failure` (the reinterpretation `as T` in the source)
it completes with that same `Failure` as the final value. -/
theorem iterator_protocol_of_ok_and_err {T E : Type} :
    (∀ (v : T) (rs : List (Result T E)),
        runTrace (okIter (E := E) v) rs = ([], Option.some v)) ∧
    (∀ (e : E) (rs : List (Result T E)),
        (runTrace (errIter (T := T) e) rs).1 = [Result.err e]) ∧
    (∀ e : E,
        runTrace (errIter (T := T) e) [Result.err e] =
          ([Result.err e], Option.some (Result.err e))) := by
  refine ⟨?_, ?_, ?_⟩
  · intro v rs; cases rs <;> simp [okIter, runTrace]
  · intro e rs; cases rs <;> simp [errIter, runTrace]
  · intro e; simp [errIter, runTrace]

/-- Claim C4: `all` returns the first `Failure` with its error unchanged, for
every suffix after it (so nothing past the first `Failure` is inspected);
an all-success list yields `Ok` of the payloads in order; the empty list
yields `Ok []`. -/
theorem all_short_circuits_and_collects {T E : Type} :
    (∀ (pre : List T) (e : E) (post : List (Result T E)),
        all (pre.map Result.ok ++ Result.err e :: post) = Result.err e) ∧
    (∀ vs : List T, all (vs.map (Result.ok (E := E))) = Result.ok vs) ∧
    all ([] : List (Result T E)) = Result.ok ([] : List T) := by
  refine ⟨?_, ?_, ?_⟩
  · intro pre e post
    unfold all
    rw [allGo_ok_steps]
    simp [allGo]
  · intro vs
    unfold all
    have h := allGo_ok_steps (E := E) vs [] []
    simpa [allGo] using h
  · simp [all, allGo]

/-- Claim C5: `partition` returns the success payloads and the error values,
each in original relative order, and every input element contributes to
exactly one output, so the output lengths sum to the input length. -/
theorem partition_splits_preserving_order {T E : Type} (rs : List (Result T E)) :
    partition rs = (okValues rs, errValues rs) ∧
    (partition rs).1.length + (partition rs).2.length = rs.length := by
  have h : partition rs = (okValues rs, errValues rs) := by
    unfold partition
    rw [partitionGo_spec]
    simp
  refine ⟨h, ?_⟩
  rw [h]
  exact okValues_errValues_length rs

end GenTheorems

section ExtractionTheorems

/-- Claim C6: extraction raises exactly on variant mismatch — `unwrap` on an
`Err` produces the fault whose message carries the serialized error, while
`expectErr` on that `Err` returns the error without fault; `expectErr` on an
`Ok` produces the fault with the caller's message, while `unwrap` on that `Ok`
returns the value; and `unwrap` on `None` produces its fault. -/
theorem extraction_raises_exactly_on_mismatch {T E : Type} :
    (∀ (e : E) (serialize : E → String),
        Result.unwrap (T := T) serialize (Result.err e) =
          Except.error ("Called unwrap on an Err value: " ++ serialize e)) ∧
    (∀ (e : E) (msg : String),
        Result.expectErr (T := T) msg (Result.err e) = Except.ok e) ∧
    (∀ (v : T) (msg : String),
        Result.expectErr (E := E) msg (Result.ok v) = Except.error msg) ∧
    (∀ (v : T) (serialize : E → String),
        Result.unwrap serialize (Result.ok (E := E) v) = Except.ok v) ∧
    Option.unwrap (Option.none : Option T) =
      Except.error "Called unwrap on a None value" := by
  refine ⟨?_, ?_, ?_, ?_, ?_⟩ <;>
    simp [Result.unwrap, Result.expectErr, Option.unwrap]

/-- Claim C7: `fromNullable` maps the two host absence sentinels to `None`
and every actual value to `Some` of that value; in particular `0`, the empty
string and `false` map to `Some`. -/
theorem fromNullable_absent_iff_sentinel {T : Type} :
    (∀ v : T, OptionFactory.fromNullable (Nullable.val v) = Option.some v) ∧
    OptionFactory.fromNullable (Nullable.jsNull : Nullable T) = Option.none ∧
    OptionFactory.fromNullable (Nullable.jsUndefined : Nullable T) = Option.none ∧
    (OptionFactory.fromNullable (Nullable.val (0 : Nat))).isSome = true ∧
    (OptionFactory.fromNullable (Nullable.val "")).isSome = true ∧
    (OptionFactory.fromNullable (Nullable.val false)).isSome = true := by
  refine ⟨?_, ?_, ?_, ?_, ?_, ?_⟩ <;>
    simp [OptionFactory.fromNullable, Option.isSome]

/-- Claim C9: functor laws — mapping the identity over any outcome gives back
the same outcome (same variant, same contained value or error), and mapping
`f` then `g` over a `Success` equals mapping their composition. -/
theorem map_functor_laws {T E U W : Type} :
    (∀ r : Result T E, r.map id = r) ∧
    (∀ (v : T) (f : T → U) (g : U → W),
        ((Result.ok (E := E) v).map f).map g =
          (Result.ok v).map (fun x => g (f x))) := by
  constructor
  · intro r; cases r <;> simp [Result.map]
  · intro v f g; simp [Result.map]

end ExtractionTheorems

section TryPromiseHelpers

open ResultFactory

variable {T E F : Type}

/-- Shifting the start of a `List.range`-indexed map by one. -/
lemma range_map_shift (f : Nat → Nat) (a k : Nat) :
    (List.range (k + 1)).map (fun i => f (a + i)) =
      f a :: (List.range k).map (fun i => f (a + 1 + i)) := by
  rw [List.range_succ_eq_map, List.map_cons, List.map_map]
  refine congrArg₂ _ (by simp) ?_
  refine List.map_congr_left ?_
  intro i _
  simp only [Function.comp]
  congr 1
  omega

/-- The attempt loop invokes the thunk at most `remaining` times. -/
lemma tpGo_invocations_le (tryFn : Nat → Except F T) (catchFn : Option (F → E))
    (retry : Option Retry) :
    ∀ (remaining attempt : Nat),
      (tpGo tryFn catchFn retry attempt remaining).2.2 ≤ remaining := by
  intro remaining
  induction remaining with
  | zero => intro attempt; simp [tpGo]
  | succ m ih =>
    intro attempt
    cases h : tryFn attempt with
    | ok v => simp [tpGo, h]
    | error f =>
      by_cases hm : m = 0
      · subst hm; simp [tpGo, h]
      · have hle := ih (attempt + 1)
        cases retry with
        | some r => simp [tpGo, h, hm]; omega
        | none => simp [tpGo, h, hm]; omega

/-- When the first `k` attempts reject and attempt `k` (zero-based, counted
from `attempt`) resolves within the budget, the loop returns `Ok` of the
resolved value after exactly `k + 1` invocations, having requested exactly the
`k` backoff delays for attempts `attempt, …, attempt + k - 1`. -/
lemma tpGo_first_success (tryFn : Nat → Except F T) (catchFn : Option (F → E))
    (r : Retry) :
    ∀ (k attempt remaining : Nat),
      k + 1 ≤ remaining →
      (∀ i, i < k → ∃ f, tryFn (attempt + i) = Except.error f) →
      ∀ v : T, tryFn (attempt + k) = Except.ok v →
      tpGo tryFn catchFn (Option.some r) attempt remaining =
        (Result.ok v, (List.range k).map (fun i => retryDelay r (attempt + i)),
         k + 1) := by
  intro k
  induction k with
  | zero =>
    intro attempt remaining hrem hfail v hok
    obtain ⟨m, rfl⟩ : ∃ m, remaining = m + 1 := ⟨remaining - 1, by omega⟩
    rw [Nat.add_zero] at hok
    simp [tpGo, hok]
  | succ k ih =>
    intro attempt remaining hrem hfail v hok
    obtain ⟨m, rfl⟩ : ∃ m, remaining = m + 1 := ⟨remaining - 1, by omega⟩
    obtain ⟨f, hf⟩ := hfail 0 (by omega)
    rw [Nat.add_zero] at hf
    have hm : m ≠ 0 := by omega
    have hrest := ih (attempt + 1) m (by omega)
      (fun i hi => by
        obtain ⟨g, hg⟩ := hfail (i + 1) (by omega)
        exact ⟨g, by rw [show attempt + 1 + i = attempt + (i + 1) by omega]; exact hg⟩)
      v (by rw [show attempt + 1 + k = attempt + (k + 1) by omega]; exact hok)
    simp only [tpGo, hf, if_neg hm, hrest]
    refine congrArg₂ _ rfl (congrArg₂ _ ?_ (by omega))
    rw [range_map_shift (retryDelay r) attempt k]

/-- When every attempt within the budget rejects, the loop returns `Err` of
the mapped final fault after exactly `remaining` invocations, having requested
the backoff delays for all non-final attempts. -/
lemma tpGo_all_fail (tryFn : Nat → Except F T) (catchFn : Option (F → E))
    (r : Retry) (fs : Nat → F) :
    ∀ (remaining attempt : Nat),
      1 ≤ remaining →
      (∀ i, i < remaining → tryFn (attempt + i) = Except.error (fs (attempt + i))) →
      tpGo tryFn catchFn (Option.some r) attempt remaining =
        (Result.err (mapFault catchFn (fs (attempt + remaining - 1))),
         (List.range (remaining - 1)).map (fun i => retryDelay r (attempt + i)),
         remaining) := by
  intro remaining
  induction remaining with
  | zero => intro attempt h; omega
  | succ m ih =>
    intro attempt hpos hfail
    have hf : tryFn attempt = Except.error (fs attempt) := by
      have := hfail 0 (by omega)
      rwa [Nat.add_zero] at this
    by_cases hm : m = 0
    · subst hm
      simp [tpGo, hf]
    · have hrest := ih (attempt + 1) (by omega)
        (fun i hi => by
          have := hfail (i + 1) (by omega)
          rwa [show attempt + (i + 1) = attempt + 1 + i by omega] at this)
      simp only [tpGo, hf, if_neg hm, hrest]
      refine congrArg₂ _ ?_ (congrArg₂ _ ?_ rfl)
      · rw [show attempt + 1 + m - 1 = attempt + (m + 1) - 1 by omega]
      · rw [show m + 1 - 1 = (m - 1) + 1 by omega,
          range_map_shift (retryDelay r) attempt (m - 1)]

end TryPromiseHelpers

section TryPromiseTheorems

open ResultFactory

/-- Claim C8: with retry `{times := n, delayMs := d}` the thunk is invoked at
most `n + 1` times (exactly once when no retry is configured); the first
successful attempt returns `Success` of its value immediately with no further
attempts, the delay before each retry being `d` for linear backoff and
`d * 2 ^ i` for exponential backoff (`i` the zero-based attempt index); and
when all `n + 1` attempts fail, the result is `Failure` of the catch mapper
applied to the final fault, or of the raw final fault when no catch mapper is
configured. -/
theorem tryPromise_budget_backoff_and_mapping {T E F : Type}
    (n d : Nat) (b : Backoff) (catchFn : Option (F → E))
    (tryFn : Nat → Except F T) :
    (tryPromise tryFn catchFn (Option.some ⟨(n : Int), d, b⟩)).2.2 ≤ n + 1 ∧
    (tryPromise tryFn catchFn Option.none).2.2 = 1 ∧
    (∀ (k : Nat) (v : T), k ≤ n →
        (∀ i, i < k → ∃ f, tryFn i = Except.error f) →
        tryFn k = Except.ok v →
        tryPromise tryFn catchFn (Option.some ⟨(n : Int), d, b⟩) =
          (Result.ok v,
           (List.range k).map (fun i =>
             match b with
             | .linear => d
             | .exponential => d * 2 ^ i),
           k + 1)) ∧
    (∀ fs : Nat → F, (∀ i, i ≤ n → tryFn i = Except.error (fs i)) →
        tryPromise tryFn catchFn (Option.some ⟨(n : Int), d, b⟩) =
          ((match catchFn with
            | .some c => Result.err (TPErr.ofCatch (c (fs n)))
            | .none => Result.err (TPErr.ofFault (fs n))),
           (List.range n).map (fun i =>
             match b with
             | .linear => d
             | .exponential => d * 2 ^ i),
           n + 1)) := by
  have htn : (maxAttempts (Option.some (⟨(n : Int), d, b⟩ : Retry))).toNat = n + 1 := by
    simp only [maxAttempts]
    omega
  refine ⟨?_, ?_, ?_, ?_⟩
  · simp only [tryPromise, htn]
    exact tpGo_invocations_le tryFn catchFn _ (n + 1) 0
  · have h1 : (maxAttempts (Option.none : Option Retry)).toNat = 1 := by
      simp [maxAttempts]
    simp only [tryPromise, h1]
    cases h : tryFn 0 <;> simp [tpGo, h]
  · intro k v hk hfail hok
    have hrun := tpGo_first_success tryFn catchFn ⟨(n : Int), d, b⟩ k 0 (n + 1)
      (by omega) (fun i hi => by simpa using hfail i hi) v (by simpa using hok)
    simp only [tryPromise, htn]
    rw [hrun]
    cases b <;> simp [retryDelay]
  · intro fs hfs
    have hrun := tpGo_all_fail tryFn catchFn ⟨(n : Int), d, b⟩ fs (n + 1) 0
      (by omega) (fun i hi => by simpa using hfs i (by omega))
    simp only [Nat.zero_add, Nat.add_sub_cancel] at hrun
    simp only [tryPromise, htn]
    rw [hrun]
    cases catchFn <;> cases b <;> simp [mapFault, retryDelay]

/-- Witness for C8: a thunk that rejects on attempt 0 and resolves on attempt
1 under `{times: 1, delayMs: 10, backoff: exponential}` gives `Ok 42` with one
10ms delay and two invocations; an always-rejecting thunk with a `catch`
mapper gives the mapped final fault after the same delay and two invocations. -/
theorem tryPromise_budget_backoff_witness :
    ResultFactory.tryPromise
        (fun i => if i = 0 then Except.error (7 : Nat) else Except.ok (42 : Nat))
        (Option.none : Option (Nat → Nat))
        (Option.some ⟨(1 : Int), 10, Backoff.exponential⟩) =
      (Result.ok 42, [10], 2) ∧
    ResultFactory.tryPromise (fun _ : Nat => Except.error (7 : Nat))
        (Option.some (fun f : Nat => f + 1))
        (Option.some ⟨(1 : Int), 10, Backoff.exponential⟩) =
      ((Result.err (TPErr.ofCatch 8) : Result Nat (TPErr Nat Nat)), [10], 2) := by
  constructor
  · have h := (tryPromise_budget_backoff_and_mapping 1 10 Backoff.exponential
      (Option.none : Option (Nat → Nat))
      (fun i => if i = 0 then Except.error (7 : Nat) else Except.ok (42 : Nat))).2.2.1
      1 42 (Nat.le_refl 1)
      (fun i hi => by
        have hi0 : i = 0 := by omega
        subst hi0
        exact ⟨7, by simp⟩)
      (by simp)
    simpa using h
  · have h := (tryPromise_budget_backoff_and_mapping (T := Nat) 1 10 Backoff.exponential
      (Option.some (fun f : Nat => f + 1))
      (fun _ : Nat => Except.error (7 : Nat))).2.2.2
      (fun _ => 7) (fun i hi => rfl)
    simpa using h

/-- Claim C10: a retry configuration whose `times` is negative makes the
attempt budget `times + 1` nonpositive, so the loop body never runs: the thunk
is never invoked and the overall result is the `Failure` carrying the fresh
"Unexpected retry error" fault — not a raise and not a `Success`. -/
theorem tryPromise_negative_times_never_invokes {T E F : Type}
    (t : Int) (ht : t < 0) (d : Nat) (b : Backoff)
    (catchFn : Option (F → E)) (tryFn : Nat → Except F T) :
    tryPromise tryFn catchFn (Option.some ⟨t, d, b⟩) =
      (Result.err TPErr.unexpectedRetry, [], 0) := by
  have h0 : (maxAttempts (Option.some (⟨t, d, b⟩ : Retry))).toNat = 0 := by
    simp only [maxAttempts]
    omega
  simp only [tryPromise, h0, tpGo]

/-- Witness for C10: at `times = -1` the thunk never runs and the result is
the "Unexpected retry error" failure with zero invocations. -/
theorem tryPromise_negative_times_witness :
    (-1 : Int) < 0 ∧
    ResultFactory.tryPromise (fun _ : Nat => Except.error (0 : Nat))
        (Option.none : Option (Nat → Nat))
        (Option.some ⟨(-1 : Int), 5, Backoff.linear⟩) =
      ((Result.err TPErr.unexpectedRetry : Result Nat (TPErr Nat Nat)), [], 0) :=
  ⟨by norm_num,
   tryPromise_negative_times_never_invokes (-1) (by norm_num) 5 Backoff.linear
     (Option.none : Option (Nat → Nat)) (fun _ : Nat => Except.error (0 : Nat))⟩

end TryPromiseTheorems

end NoThrow
